import Mathlib

/-
Shallow embedding of src/src/Access/SettingsConstraints.cpp (ClickHouse
settings-constraints engine): the per-setting constraint table, the
mode-dependent range resolver getRange, the dual-mode validator
checkImpl / Range.check (THROW_ON_VIOLATION vs CLAMP_ON_VIOLATION), the
batch filters check / clamp, and merge.

External collaborators (the canonical Field type with its accurate
comparison, Settings::castValueUtil, the access-control allow list and
the settings snapshot) are modelled as explicit data: values are a small
concrete scalar type, casting and the allow list are parameters bundled
in an environment, and every C++ throw becomes Except.error.
-/

set_option autoImplicit false

deriving instance DecidableEq for Except

namespace DB

/-- Model of the dynamically typed scalar Field.  null is the
default-constructed Field (used for unset bounds and for the value
returned by a failed cast); integers and strings are two concrete
payload types whose cross-type comparison fails, mirroring how
FieldVisitorAccurateLess throws on incomparable types. -/
inductive Value where
  | null
  | int (n : Int)
  | str (s : String)
deriving DecidableEq

/-- Field.isNull from the source: true exactly on the default value. -/
def Value.isNull : Value → Bool
  | .null => true
  | _ => false

/-- Model of applyVisitor(FieldVisitorAccurateLess, left, right): a
best-effort three-valued less-than.  some b is a successful comparison
with answer b; none is a failed comparison between incomparable types
(the C++ visitor throws there). -/
def accurateLess : Value → Value → Option Bool
  | .int a, .int b => some (decide (a < b))
  | .str a, .str b => some (decide (a < b))
  | _, _ => none

/-- Error codes used by this translation unit (declared extern in the
source); represented symbolically since only their identity matters. -/
inductive ErrorCode where
  | READONLY
  | QUERY_IS_PROHIBITED
  | SETTING_CONSTRAINT_VIOLATION
  | UNKNOWN_SETTING
deriving DecidableEq

/-- Everything the C++ code can throw: DB::Exception with a message and
an error code, the casting error thrown by Settings::castValueUtil, and
the comparison error thrown by FieldVisitorAccurateLess. -/
inductive Exc where
  | exception (message : String) (code : ErrorCode)
  | castError
  | comparisonError
deriving DecidableEq

/-- ReactionOnViolation from the header: how checkImpl and Range.check
react to a violated constraint. -/
inductive ReactionOnViolation where
  | THROW_ON_VIOLATION
  | CLAMP_ON_VIOLATION
deriving DecidableEq

/-- SettingChange: a named proposed value, mutable in place when
clamped. -/
structure SettingChange where
  name : String
  value : Value
deriving DecidableEq

/-- SettingsConstraints::Range.  Modelled from the spec: the struct
itself is declared in the header (not under src/); its fields, their
defaults (unset bounds are null Fields, flags false, no forbidden
message) and the constructors forbidden/allowed are taken from the
spec data model and from every use in the .cpp (explain nonempty means
the range is forbidden and carries the message and code to raise). -/
structure Range where
  min_value : Value := .null
  max_value : Value := .null
  is_const : Bool := false
  changeable_in_readonly : Bool := false
  explain : String := ""
  code : ErrorCode := .SETTING_CONSTRAINT_VIOLATION
deriving DecidableEq

/-- Range::forbidden(explain, code): a range through which the setting
can never be changed. -/
def Range.forbidden (explain : String) (code : ErrorCode) : Range :=
  { explain := explain, code := code }

/-- Range::allowed(): the fully unrestricted range (no bounds, not
const). -/
def Range.allowed : Range := {}

/-- The constraints map of SettingsConstraints, modelled as an
association list from setting name to Range (iteration order of the
C++ unordered_map is the list order). -/
abbrev Constraints := List (String × Range)

/-- Lookup in the constraints map (constraints.find). -/
def findConstraint : Constraints → String → Option Range
  | [], _ => none
  | (n, r) :: rest, name => if n = name then some r else findConstraint rest name

/-- Store through the constraints map (constraints[name] = r): replace
the entry if present, append it otherwise. -/
def setConstraint : Constraints → String → Range → Constraints
  | [], name, r => [(name, r)]
  | (n, r0) :: rest, name, r =>
    if n = name then (n, r) :: rest else (n, r0) :: setConstraint rest name r

/-- The settings snapshot consumed per call: tryGet over current values,
the readonly level, the allow_ddl flag, and getHints for typo
suggestions. -/
structure Settings where
  values : String → Option Value
  readonly : Nat
  allow_ddl : Bool
  hints : String → List String

/-- External collaborators: Settings::castValueUtil (none models a
thrown casting error) and AccessControl::isSettingNameAllowed. -/
structure Env where
  castValueUtil : String → Value → Option Value
  isSettingNameAllowed : String → Bool

/-- Message of the unknown-setting exception thrown by
checkSettingNameIsAllowed, with the hint suffix that checkImpl appends
when getHints is nonempty.  Modelled from the spec: the base text lives
in the external allow-list collaborator. -/
def unknownSettingMessage (setting_name : String) (hints : List String) : String :=
  if hints.isEmpty then "Unknown setting " ++ setting_name
  else "Unknown setting " ++ setting_name ++ ". Maybe you meant " ++ String.intercalate ", " hints

/-- FieldVisitorToString, reduced to the payloads of the Value model;
only used inside violation messages. -/
def fieldToString : Value → String
  | .null => "NULL"
  | .int n => toString n
  | .str s => s

/-- less_or_cannot_compare from Range::check: under THROW_ON_VIOLATION
the comparison failure propagates as the comparison exception; under
CLAMP_ON_VIOLATION it is caught and treated as true. -/
def lessOrCannotCompare (reaction : ReactionOnViolation) (left right : Value) :
    Except Exc Bool :=
  match accurateLess left right with
  | some b => .ok b
  | none =>
    if reaction = .THROW_ON_VIOLATION then .error .comparisonError
    else .ok true

/-- SettingsConstraints::Range::check(change, new_value, reaction).  The
result is ok (kept, change-after-mutation) where kept=false means the
change is dropped, or error for a C++ throw.  The branch structure is a
direct translation: forbidden (explain nonempty), is_const, inconsistent
bounds (max below min), below minimum (clamp rewrites change.value to
min_value), above maximum (clamp rewrites to max_value), accept. -/
def Range.check (range : Range) (change : SettingChange) (new_value : Value)
    (reaction : ReactionOnViolation) : Except Exc (Bool × SettingChange) :=
  if range.explain ≠ "" then
    if reaction = .THROW_ON_VIOLATION then
      .error (.exception range.explain range.code)
    else
      .ok (false, change)
  else if range.is_const then
    if reaction = .THROW_ON_VIOLATION then
      .error (.exception ("Setting " ++ change.name ++ " should not be changed")
        .SETTING_CONSTRAINT_VIOLATION)
    else
      .ok (false, change)
  else
    match (if !range.min_value.isNull && !range.max_value.isNull then
             lessOrCannotCompare reaction range.max_value range.min_value
           else .ok false) with
    | .error e => .error e
    | .ok true =>
      if reaction = .THROW_ON_VIOLATION then
        .error (.exception ("Setting " ++ change.name ++ " should not be changed")
          .SETTING_CONSTRAINT_VIOLATION)
      else
        .ok (false, change)
    | .ok false =>
      match (if !range.min_value.isNull then
               lessOrCannotCompare reaction new_value range.min_value
             else .ok false) with
      | .error e => .error e
      | .ok below_min =>
        if below_min ∧ reaction = .THROW_ON_VIOLATION then
          .error (.exception ("Setting " ++ change.name ++ " should not be less than "
            ++ fieldToString range.min_value) .SETTING_CONSTRAINT_VIOLATION)
        else
          let change1 := if below_min then { change with value := range.min_value } else change
          match (if !range.max_value.isNull then
                   lessOrCannotCompare reaction range.max_value new_value
                 else .ok false) with
          | .error e => .error e
          | .ok above_max =>
            if above_max ∧ reaction = .THROW_ON_VIOLATION then
              .error (.exception ("Setting " ++ change.name ++ " should not be greater than "
                ++ fieldToString range.max_value) .SETTING_CONSTRAINT_VIOLATION)
            else
              let change2 :=
                if above_max then { change1 with value := range.max_value } else change1
              .ok (true, change2)

/-- SettingsConstraints::getRange(current_settings, setting_name): the
two hard-coded special cases, then the table lookup gated by the
readonly level. -/
def getRange (constraints : Constraints) (current_settings : Settings)
    (setting_name : String) : Range :=
  if ¬current_settings.allow_ddl ∧ setting_name = "allow_ddl" then
    Range.forbidden "Cannot modify allow_ddl setting when DDL queries are prohibited for the user"
      .QUERY_IS_PROHIBITED
  else if current_settings.readonly > 1 ∧ setting_name = "readonly" then
    Range.forbidden "Cannot modify readonly setting in readonly mode" .READONLY
  else
    match findConstraint constraints setting_name with
    | none =>
      if current_settings.readonly = 1 then
        Range.forbidden ("Cannot modify " ++ setting_name ++ " setting in readonly mode")
          .READONLY
      else
        Range.allowed
    | some r =>
      if current_settings.readonly = 1 ∧ ¬r.changeable_in_readonly then
        Range.forbidden ("Cannot modify " ++ setting_name ++ " setting in readonly mode")
          .READONLY
      else
        r

/-- The cast_value lambda of checkImpl: result is (casted value,
cannot_cast flag).  Under THROW_ON_VIOLATION a failed cast propagates as
the casting error; under CLAMP_ON_VIOLATION it is caught, the flag is
set and the null Field returned. -/
def castValueStep (env : Env) (setting_name : String) (reaction : ReactionOnViolation)
    (x : Value) : Except Exc (Value × Bool) :=
  match env.castValueUtil setting_name x with
  | some v => .ok (v, false)
  | none =>
    if reaction = .THROW_ON_VIOLATION then .error .castError
    else .ok (.null, true)

/-- SettingsConstraints::checkImpl(current_settings, change, reaction):
profile bypass, allow-list gate (throwing with hints under
THROW_ON_VIOLATION, silently dropping under CLAMP_ON_VIOLATION), no-op
detection against the current value before and after casting, cast
failure handling, then delegation to the resolved range. -/
def checkImpl (env : Env) (constraints : Constraints) (current_settings : Settings)
    (change : SettingChange) (reaction : ReactionOnViolation) :
    Except Exc (Bool × SettingChange) :=
  if change.name = "profile" then
    .ok (true, change)
  else if reaction = .THROW_ON_VIOLATION ∧ ¬env.isSettingNameAllowed change.name then
    .error (.exception (unknownSettingMessage change.name (current_settings.hints change.name))
      .UNKNOWN_SETTING)
  else if reaction = .CLAMP_ON_VIOLATION ∧ ¬env.isSettingNameAllowed change.name then
    .ok (false, change)
  else
    match current_settings.values change.name with
    | some current_value =>
      if change.value = current_value then
        .ok (false, change)
      else
        match castValueStep env change.name reaction change.value with
        | .error e => .error e
        | .ok (new_value, cannot_cast) =>
          if new_value = current_value ∨ cannot_cast then
            .ok (false, change)
          else
            (getRange constraints current_settings change.name).check change new_value reaction
    | none =>
      match castValueStep env change.name reaction change.value with
      | .error e => .error e
      | .ok (new_value, cannot_cast) =>
        if cannot_cast then
          .ok (false, change)
        else
          (getRange constraints current_settings change.name).check change new_value reaction

/-- The boost::range::remove_erase_if loop shared by the batch check and
clamp: each change goes through checkImpl with the given reaction; a
thrown error aborts the whole batch, a false result removes the change,
a true result keeps the (possibly rewritten) change. -/
def checkList (env : Env) (constraints : Constraints) (current_settings : Settings) :
    List SettingChange → ReactionOnViolation → Except Exc (List SettingChange)
  | [], _ => .ok []
  | change :: rest, reaction =>
    match checkImpl env constraints current_settings change reaction with
    | .error e => .error e
    | .ok (keep, change2) =>
      match checkList env constraints current_settings rest reaction with
      | .error e => .error e
      | .ok rest2 => .ok (if keep then change2 :: rest2 else rest2)

/-- SettingsConstraints::check(current_settings, changes): the batch
filter under THROW_ON_VIOLATION. -/
def checkChanges (env : Env) (constraints : Constraints) (current_settings : Settings)
    (changes : List SettingChange) : Except Exc (List SettingChange) :=
  checkList env constraints current_settings changes .THROW_ON_VIOLATION

/-- SettingsConstraints::clamp(current_settings, changes): the batch
filter under CLAMP_ON_VIOLATION. -/
def clamp (env : Env) (constraints : Constraints) (current_settings : Settings)
    (changes : List SettingChange) : Except Exc (List SettingChange) :=
  checkList env constraints current_settings changes .CLAMP_ON_VIOLATION

/-- The per-entry step of merge in the refine branch: a set (non-null)
min_value or max_value of the other entry overwrites the field, and a
true is_const is turned on and never turned off.  changeable_in_readonly
is not touched. -/
def mergeConstraint (constraint other_constraint : Range) : Range :=
  let c1 := if ¬other_constraint.min_value.isNull then
              { constraint with min_value := other_constraint.min_value }
            else constraint
  let c2 := if ¬other_constraint.max_value.isNull then
              { c1 with max_value := other_constraint.max_value }
            else c1
  if other_constraint.is_const then { c2 with is_const := true } else c2

/-- SettingsConstraints::merge(other): when
settings_constraints_replace_previous holds (the Replace policy of
doesSettingsConstraintsReplacePrevious) every entry of other fully
overwrites this table's entry; otherwise (Refine) each entry of other is
folded in per-field through mergeConstraint, with
constraints[other_name] default-constructing a fresh entry when
missing. -/
def merge (constraints other : Constraints)
    (settings_constraints_replace_previous : Bool) : Constraints :=
  if settings_constraints_replace_previous then
    other.foldl (fun acc p => setConstraint acc p.1 p.2) constraints
  else
    other.foldl
      (fun acc p => setConstraint acc p.1 (mergeConstraint ((findConstraint acc p.1).getD {}) p.2))
      constraints

/-- The value of lessOrCannotCompare under CLAMP_ON_VIOLATION as a pure
boolean: a failed comparison counts as true. -/
def lccB (left right : Value) : Bool :=
  (accurateLess left right).getD true

/-- Pure characterisation of Range.check under CLAMP_ON_VIOLATION (the
clamp reaction never raises).  When both bound tests fire (possible only
through a failed comparison) the max rewrite, being applied second in
the source, wins, so the result is stated with the max test first. -/
def clampCheckResult (range : Range) (change : SettingChange) (new_value : Value) :
    Bool × SettingChange :=
  if range.explain ≠ "" then (false, change)
  else if range.is_const then (false, change)
  else if (!range.min_value.isNull && !range.max_value.isNull)
      && lccB range.max_value range.min_value then (false, change)
  else if !range.max_value.isNull && lccB range.max_value new_value then
    (true, { change with value := range.max_value })
  else if !range.min_value.isNull && lccB new_value range.min_value then
    (true, { change with value := range.min_value })
  else (true, change)

/-- Pure characterisation of checkImpl under CLAMP_ON_VIOLATION. -/
def clampImplResult (env : Env) (constraints : Constraints) (current_settings : Settings)
    (change : SettingChange) : Bool × SettingChange :=
  if change.name = "profile" then (true, change)
  else if ¬env.isSettingNameAllowed change.name then (false, change)
  else
    match current_settings.values change.name with
    | some current_value =>
      if change.value = current_value then (false, change)
      else
        match env.castValueUtil change.name change.value with
        | none => (false, change)
        | some new_value =>
          if new_value = current_value then (false, change)
          else clampCheckResult (getRange constraints current_settings change.name) change new_value
    | none =>
      match env.castValueUtil change.name change.value with
      | none => (false, change)
      | some new_value =>
        clampCheckResult (getRange constraints current_settings change.name) change new_value

/-- Pure characterisation of the batch clamp. -/
def pureClampList (env : Env) (constraints : Constraints) (current_settings : Settings) :
    List SettingChange → List SettingChange
  | [] => []
  | change :: rest =>
    if (clampImplResult env constraints current_settings change).1 then
      (clampImplResult env constraints current_settings change).2
        :: pureClampList env constraints current_settings rest
    else pureClampList env constraints current_settings rest

/-- Concrete environment for evaluations: casting is the identity and
every setting name is allowed. -/
def idEnv : Env :=
  { castValueUtil := fun _ v => some v
    isSettingNameAllowed := fun _ => true }

/-- Concrete environment for evaluations: casting is the identity and no
setting name is allowed. -/
def rejectEnv : Env :=
  { castValueUtil := fun _ v => some v
    isSettingNameAllowed := fun _ => false }

/-- Concrete snapshot for evaluations: setting x is currently 10, no
readonly restriction, DDL allowed, no hints. -/
def snapX10 : Settings :=
  { values := fun n => if n = "x" then some (.int 10) else none
    readonly := 0
    allow_ddl := true
    hints := fun _ => [] }

/-- Concrete snapshot for evaluations: setting x is currently 5. -/
def snapX5 : Settings :=
  { values := fun n => if n = "x" then some (.int 5) else none
    readonly := 0
    allow_ddl := true
    hints := fun _ => [] }

/-- Concrete constraint table for evaluations: x has minimum 10. -/
def ctMin10 : Constraints := [("x", { min_value := .int 10 })]

/-- Hypothesis that stored bounds are canonical: casting a non-null
bound of a table entry to its own setting returns it unchanged.  This is
how the source maintains the table: setMinValue and setMaxValue store
Settings::castValueUtil(setting_name, value), and castValueUtil is
idempotent on already-canonical values. -/
def boundsCastStable (env : Env) (constraints : Constraints) : Prop :=
  ∀ name r, findConstraint constraints name = some r →
    (r.min_value.isNull = false → env.castValueUtil name r.min_value = some r.min_value) ∧
    (r.max_value.isNull = false → env.castValueUtil name r.max_value = some r.max_value)

/-- Under CLAMP_ON_VIOLATION the best-effort comparison never raises:
its value is lccB (a failed comparison counts as true). -/
theorem lessOrCannotCompare_clamp (left right : Value) :
    lessOrCannotCompare .CLAMP_ON_VIOLATION left right = .ok (lccB left right) := by
  unfold lessOrCannotCompare lccB
  cases accurateLess left right <;> simp

/-- Range.check under CLAMP_ON_VIOLATION never raises and equals its
pure characterisation. -/
theorem range_check_clamp (range : Range) (change : SettingChange) (new_value : Value) :
    Range.check range change new_value .CLAMP_ON_VIOLATION
      = .ok (clampCheckResult range change new_value) := by
  unfold Range.check clampCheckResult
  simp only [lessOrCannotCompare_clamp]
  repeat' split
  all_goals simp_all [ite_eq_iff]

/-- checkImpl under CLAMP_ON_VIOLATION never raises and equals its pure
characterisation. -/
theorem checkImpl_clamp (env : Env) (constraints : Constraints) (current_settings : Settings)
    (change : SettingChange) :
    checkImpl env constraints current_settings change .CLAMP_ON_VIOLATION
      = .ok (clampImplResult env constraints current_settings change) := by
  unfold checkImpl clampImplResult castValueStep
  repeat' split
  all_goals simp_all [range_check_clamp]

/-- The batch clamp never raises and equals its pure characterisation. -/
theorem checkList_clamp (env : Env) (constraints : Constraints) (current_settings : Settings)
    (changes : List SettingChange) :
    checkList env constraints current_settings changes .CLAMP_ON_VIOLATION
      = .ok (pureClampList env constraints current_settings changes) := by
  induction changes with
  | nil => rfl
  | cons c rest ih =>
    unfold checkList pureClampList
    rw [checkImpl_clamp, ih]

/-- Under THROW_ON_VIOLATION a non-raising Range.check keeps the change
and never rewrites it (every violation raises instead). -/
theorem range_check_throw_shape (range : Range) (change : SettingChange) (new_value : Value)
    (b : Bool) (c2 : SettingChange)
    (h : Range.check range change new_value .THROW_ON_VIOLATION = .ok (b, c2)) :
    b = true ∧ c2 = change := by
  unfold Range.check at h
  repeat' split at h
  all_goals simp_all

/-- Under THROW_ON_VIOLATION a non-raising checkImpl never rewrites the
change. -/
theorem checkImpl_throw_no_mutate (env : Env) (constraints : Constraints)
    (current_settings : Settings) (change : SettingChange) (b : Bool) (c2 : SettingChange)
    (h : checkImpl env constraints current_settings change .THROW_ON_VIOLATION = .ok (b, c2)) :
    c2 = change := by
  unfold checkImpl castValueStep at h
  repeat' split at h
  all_goals first
    | (exact (range_check_throw_shape _ _ _ _ _ h).2)
    | simp_all


theorem checkList_throw_members (env : Env) (ct : Constraints) (s : Settings)
    (l out : List SettingChange)
    (h : checkList env ct s l .THROW_ON_VIOLATION = .ok out) :
    ∀ c ∈ out, checkImpl env ct s c .THROW_ON_VIOLATION = .ok (true, c) := by
  induction l generalizing out with
  | nil =>
    unfold checkList at h
    simp at h
    subst h
    intro c hc
    simp at hc
  | cons c0 rest ih =>
    unfold checkList at h
    revert h
    split
    · intro h; simp at h
    · rename_i keep c2 hp
      have hc2 : c2 = c0 := checkImpl_throw_no_mutate _ _ _ _ _ _ hp
      subst hc2
      split
      · intro h; simp at h
      · rename_i rest2 hrest
        intro h
        simp only [Except.ok.injEq] at h
        subst h
        intro c hc
        by_cases hk : keep = true
        · subst hk
          simp at hc
          rcases hc with hc | hc
          · subst hc; exact hp
          · exact ih rest2 hrest c hc
        · simp [hk] at hc
          exact ih rest2 hrest c hc

theorem checkList_throw_of_members (env : Env) (ct : Constraints) (s : Settings)
    (l : List SettingChange)
    (h : ∀ c ∈ l, checkImpl env ct s c .THROW_ON_VIOLATION = .ok (true, c)) :
    checkList env ct s l .THROW_ON_VIOLATION = .ok l := by
  induction l with
  | nil => rfl
  | cons c0 rest ih =>
    unfold checkList
    rw [h c0 (by simp), ih (fun c hc => h c (by simp [hc]))]
    simp

theorem find_set_self (ct : Constraints) (n : String) (r : Range) :
    findConstraint (setConstraint ct n r) n = some r := by
  induction ct with
  | nil => simp [setConstraint, findConstraint]
  | cons p rest ih =>
    obtain ⟨n0, r0⟩ := p
    unfold setConstraint
    split <;> simp_all [findConstraint]

theorem find_set_ne (ct : Constraints) (n m : String) (r : Range) (h : ¬n = m) :
    findConstraint (setConstraint ct n r) m = findConstraint ct m := by
  induction ct with
  | nil => simp [setConstraint, findConstraint, h]
  | cons p rest ih =>
    obtain ⟨n0, r0⟩ := p
    unfold setConstraint
    split <;> simp_all [findConstraint]

theorem find_not_mem (ct : Constraints) (name : String)
    (h : name ∉ ct.map Prod.fst) : findConstraint ct name = none := by
  induction ct with
  | nil => rfl
  | cons p rest ih =>
    simp at h
    unfold findConstraint
    split
    · exact absurd (by simp_all) h.1
    · exact ih (by simp [h.2])

theorem mergeConstraint_is_const (d o : Range) :
    (mergeConstraint d o).is_const = (d.is_const || o.is_const) := by
  unfold mergeConstraint
  repeat' split
  all_goals simp_all

theorem mergeConstraint_changeable (d o : Range) :
    (mergeConstraint d o).changeable_in_readonly = d.changeable_in_readonly := by
  unfold mergeConstraint
  repeat' split
  all_goals simp_all

theorem mergeConstraint_min (d o : Range) :
    (mergeConstraint d o).min_value = if o.min_value.isNull then d.min_value else o.min_value := by
  unfold mergeConstraint
  repeat' split
  all_goals simp_all

theorem mergeConstraint_max (d o : Range) :
    (mergeConstraint d o).max_value = if o.max_value.isNull then d.max_value else o.max_value := by
  unfold mergeConstraint
  repeat' split
  all_goals simp_all

theorem merge_refine_nil (self : Constraints) : merge self [] false = self := by
  unfold merge
  simp

theorem merge_refine_cons (self : Constraints) (n0 : String) (r0 : Range) (rest : Constraints) :
    merge self ((n0, r0) :: rest) false
      = merge (setConstraint self n0 (mergeConstraint ((findConstraint self n0).getD {}) r0))
          rest false := by
  unfold merge
  simp

theorem merge_refine_find_not_mem (self other : Constraints) (name : String)
    (h : name ∉ other.map Prod.fst) :
    findConstraint (merge self other false) name = findConstraint self name := by
  induction other generalizing self with
  | nil => rw [merge_refine_nil]
  | cons p rest ih =>
    obtain ⟨n0, r0⟩ := p
    simp at h
    rw [merge_refine_cons, ih _ (by simp [h.2]),
      find_set_ne _ _ _ _ (fun he => h.1 he.symm)]

theorem merge_refine_find_of_nodup (self other : Constraints) (name : String) (oc : Range)
    (hnd : (other.map Prod.fst).Nodup)
    (h : findConstraint other name = some oc) :
    findConstraint (merge self other false) name
      = some (mergeConstraint ((findConstraint self name).getD {}) oc) := by
  induction other generalizing self with
  | nil => simp [findConstraint] at h
  | cons p rest ih =>
    obtain ⟨n0, r0⟩ := p
    simp at hnd
    unfold findConstraint at h
    revert h
    split
    · rename_i heq
      intro h
      simp at h
      subst h
      subst heq
      rw [merge_refine_cons,
        merge_refine_find_not_mem _ _ _ (by simpa using hnd.1),
        find_set_self]
    · rename_i hne
      intro h
      have step := ih (setConstraint self n0 (mergeConstraint ((findConstraint self n0).getD {}) r0)) hnd.2 h
      rw [merge_refine_cons, step, find_set_ne _ _ _ _ hne]

theorem merge_refine_const_mono (self other : Constraints) (name : String) (r : Range)
    (hfind : findConstraint self name = some r) (hconst : r.is_const = true) :
    ∃ rr, findConstraint (merge self other false) name = some rr ∧ rr.is_const = true := by
  induction other generalizing self r with
  | nil => rw [merge_refine_nil]; exact ⟨r, hfind, hconst⟩
  | cons p rest ih =>
    obtain ⟨n0, r0⟩ := p
    rw [merge_refine_cons]
    by_cases he : n0 = name
    · subst he
      refine ih (setConstraint self n0 (mergeConstraint ((findConstraint self n0).getD {}) r0))
        (mergeConstraint ((findConstraint self n0).getD {}) r0) (find_set_self _ _ _) ?_
      rw [mergeConstraint_is_const, hfind]
      simp [hconst]
    · exact ih _ r (by rw [find_set_ne _ _ _ _ he]; exact hfind) hconst



theorem getRange_bound_from_table (ct : Constraints) (s : Settings) (name : String)
    (h : (getRange ct s name).min_value.isNull = false
        ∨ (getRange ct s name).max_value.isNull = false) :
    findConstraint ct name = some (getRange ct s name) := by
  revert h
  unfold getRange
  repeat' split
  all_goals intro h
  all_goals simp_all [Range.forbidden, Range.allowed, Value.isNull]

theorem clampCheckResult_stable (rng : Range) (c c2 : SettingChange) (nv : Value)
    (h : clampCheckResult rng c nv = (true, c2)) :
    c2 = c ∨ (c2.name = c.name ∧
      ((rng.min_value.isNull = false ∧ c2.value = rng.min_value) ∨
       (rng.max_value.isNull = false ∧ c2.value = rng.max_value)) ∧
      clampCheckResult rng c2 c2.value = (true, c2)) := by
  unfold clampCheckResult at h
  by_cases e1 : rng.explain = ""
  swap
  · simp [e1] at h
  simp [e1] at h
  by_cases e2 : rng.is_const = true
  · simp [e2] at h
  simp only [e2, if_false] at h
  by_cases e3 : (rng.min_value.isNull = false ∧ rng.max_value.isNull = false)
      ∧ lccB rng.max_value rng.min_value = true
  · simp [e3] at h
  rw [if_neg e3] at h
  by_cases hx : rng.max_value.isNull = false ∧ lccB rng.max_value nv = true
  · rw [if_pos hx] at h
    simp at h
    subst h
    right
    refine ⟨rfl, Or.inr ⟨hx.1, rfl⟩, ?_⟩
    unfold clampCheckResult
    simp [e1, e2, e3]
    intro _ hmin hlcc
    exact absurd ⟨⟨hmin, hx.1⟩, hlcc⟩ e3
  · rw [if_neg hx] at h
    by_cases hm : rng.min_value.isNull = false ∧ lccB nv rng.min_value = true
    · rw [if_pos hm] at h
      simp at h
      subst h
      right
      refine ⟨rfl, Or.inl ⟨hm.1, rfl⟩, ?_⟩
      unfold clampCheckResult
      simp [e1, e2, e3]
      intro hmax hlcc
      exact absurd ⟨⟨hm.1, hmax⟩, hlcc⟩ e3
    · rw [if_neg hm] at h
      simp at h
      left
      first
      | exact h
      | exact h.symm

theorem clampImpl_stable (env : Env) (ct : Constraints) (s : Settings)
    (c c2 : SettingChange)
    (hstable : boundsCastStable env ct)
    (h0 : clampImplResult env ct s c = (true, c2)) :
    (clampImplResult env ct s c2).2 = c2 := by
  have h := h0
  unfold clampImplResult at h
  by_cases hp : c.name = "profile"
  · rw [if_pos hp] at h
    simp at h
    subst h
    rw [h0]
  · rw [if_neg hp] at h
    by_cases hall : env.isSettingNameAllowed c.name = true
    swap
    · rw [if_pos (by simp [hall])] at h
      simp at h
    rw [if_neg (by simp [hall])] at h
    cases hsv : s.values c.name with
    | some cur =>
      simp only [hsv] at h
      by_cases hvc : c.value = cur
      · rw [if_pos hvc] at h
        simp at h
      rw [if_neg hvc] at h
      cases hcast : env.castValueUtil c.name c.value with
      | none =>
        simp only [hcast] at h
        simp at h
      | some nv =>
        simp only [hcast] at h
        by_cases hnc : nv = cur
        · rw [if_pos hnc] at h
          simp at h
        rw [if_neg hnc] at h
        rcases clampCheckResult_stable _ _ _ _ h with hc | ⟨hname, hbound, hstab⟩
        · subst hc
          rw [h0]
        · have htab := getRange_bound_from_table ct s c.name
            (by rcases hbound with ⟨hb, _⟩ | ⟨hb, _⟩; exacts [Or.inl hb, Or.inr hb])
          have hcast2 : env.castValueUtil c.name c2.value = some c2.value := by
            rcases hbound with ⟨hb, hv⟩ | ⟨hb, hv⟩
            · rw [hv]
              exact (hstable c.name _ htab).1 hb
            · rw [hv]
              exact (hstable c.name _ htab).2 hb
          unfold clampImplResult
          rw [hname, if_neg hp, if_neg (by simp [hall])]
          simp only [hsv]
          by_cases hvc2 : c2.value = cur
          · rw [if_pos hvc2]
          · rw [if_neg hvc2]
            simp only [hcast2]
            rw [if_neg hvc2, hstab]
    | none =>
      simp only [hsv] at h
      cases hcast : env.castValueUtil c.name c.value with
      | none =>
        simp only [hcast] at h
        simp at h
      | some nv =>
        simp only [hcast] at h
        rcases clampCheckResult_stable _ _ _ _ h with hc | ⟨hname, hbound, hstab⟩
        · subst hc
          rw [h0]
        · have htab := getRange_bound_from_table ct s c.name
            (by rcases hbound with ⟨hb, _⟩ | ⟨hb, _⟩; exacts [Or.inl hb, Or.inr hb])
          have hcast2 : env.castValueUtil c.name c2.value = some c2.value := by
            rcases hbound with ⟨hb, hv⟩ | ⟨hb, hv⟩
            · rw [hv]
              exact (hstable c.name _ htab).1 hb
            · rw [hv]
              exact (hstable c.name _ htab).2 hb
          unfold clampImplResult
          rw [hname, if_neg hp, if_neg (by simp [hall])]
          simp only [hsv, hcast2]
          rw [hstab]



theorem pureClampList_mem (env : Env) (ct : Constraints) (s : Settings)
    (l : List SettingChange) (c2 : SettingChange)
    (h : c2 ∈ pureClampList env ct s l) :
    ∃ c ∈ l, clampImplResult env ct s c = (true, c2) := by
  induction l with
  | nil => simp [pureClampList] at h
  | cons c0 rest ih =>
    unfold pureClampList at h
    by_cases hk : (clampImplResult env ct s c0).1 = true
    · rw [if_pos hk] at h
      rcases List.mem_cons.mp h with hc | hc
      · refine ⟨c0, by simp, ?_⟩
        calc clampImplResult env ct s c0
            = ((clampImplResult env ct s c0).1, (clampImplResult env ct s c0).2) := rfl
          _ = (true, c2) := by rw [hk, hc]
      · obtain ⟨c, hcl, hcr⟩ := ih hc
        exact ⟨c, by simp [hcl], hcr⟩
    · rw [if_neg hk] at h
      obtain ⟨c, hcl, hcr⟩ := ih h
      exact ⟨c, by simp [hcl], hcr⟩

theorem pureClampList_sublist (env : Env) (ct : Constraints) (s : Settings)
    (l : List SettingChange)
    (h : ∀ c ∈ l, (clampImplResult env ct s c).2 = c) :
    (pureClampList env ct s l).Sublist l := by
  induction l with
  | nil => simp [pureClampList]
  | cons c0 rest ih =>
    unfold pureClampList
    have h0 := h c0 (by simp)
    by_cases hk : (clampImplResult env ct s c0).1 = true
    · rw [if_pos hk, h0]
      exact (ih (fun c hc => h c (by simp [hc]))).cons₂ c0
    · rw [if_neg hk]
      exact (ih (fun c hc => h c (by simp [hc]))).cons c0

theorem checkList_error_head (env : Env) (ct : Constraints) (s : Settings)
    (c : SettingChange) (rest : List SettingChange) (e : Exc)
    (h : checkImpl env ct s c .THROW_ON_VIOLATION = .error e) :
    checkList env ct s (c :: rest) .THROW_ON_VIOLATION = .error e := by
  unfold checkList
  rw [h]



theorem lessOC_of_some (reaction : ReactionOnViolation) (l r : Value) (b : Bool)
    (h : accurateLess l r = some b) : lessOrCannotCompare reaction l r = .ok b := by
  unfold lessOrCannotCompare
  rw [h]

theorem lessOC_none_throw (l r : Value) (h : accurateLess l r = none) :
    lessOrCannotCompare .THROW_ON_VIOLATION l r = .error .comparisonError := by
  unfold lessOrCannotCompare
  rw [h]
  simp

theorem range_check_forbidden (rng : Range) (chg : SettingChange) (v : Value)
    (h : rng.explain ≠ "") :
    Range.check rng chg v .THROW_ON_VIOLATION = .error (.exception rng.explain rng.code)
    ∧ Range.check rng chg v .CLAMP_ON_VIOLATION = .ok (false, chg) := by
  refine ⟨?_, ?_⟩ <;> (unfold Range.check; simp [h])

theorem range_check_const (rng : Range) (chg : SettingChange) (v : Value)
    (h1 : rng.explain = "") (h2 : rng.is_const = true) :
    Range.check rng chg v .THROW_ON_VIOLATION
      = .error (.exception ("Setting " ++ chg.name ++ " should not be changed")
          .SETTING_CONSTRAINT_VIOLATION)
    ∧ Range.check rng chg v .CLAMP_ON_VIOLATION = .ok (false, chg) := by
  refine ⟨?_, ?_⟩ <;> (unfold Range.check; simp [h1, h2])

theorem range_check_inconsistent (rng : Range) (chg : SettingChange) (v : Value)
    (h1 : rng.explain = "") (h2 : rng.is_const = false)
    (h3 : rng.min_value.isNull = false) (h4 : rng.max_value.isNull = false)
    (h5 : accurateLess rng.max_value rng.min_value = some true) :
    Range.check rng chg v .THROW_ON_VIOLATION
      = .error (.exception ("Setting " ++ chg.name ++ " should not be changed")
          .SETTING_CONSTRAINT_VIOLATION)
    ∧ Range.check rng chg v .CLAMP_ON_VIOLATION = .ok (false, chg) := by
  refine ⟨?_, ?_⟩ <;> (unfold Range.check; simp [h1, h2, h3, h4, lessOrCannotCompare, h5])



theorem range_check_below_min (rng : Range) (chg : SettingChange) (v : Value)
    (h1 : rng.explain = "") (h2 : rng.is_const = false)
    (h3 : rng.min_value.isNull = false)
    (hcons : rng.max_value.isNull = false → accurateLess rng.max_value rng.min_value = some false)
    (hv : accurateLess v rng.min_value = some true)
    (hmax : rng.max_value.isNull = true ∨ accurateLess rng.max_value v = some false) :
    Range.check rng chg v .THROW_ON_VIOLATION
      = .error (.exception ("Setting " ++ chg.name ++ " should not be less than "
          ++ fieldToString rng.min_value) .SETTING_CONSTRAINT_VIOLATION)
    ∧ Range.check rng chg v .CLAMP_ON_VIOLATION
      = .ok (true, { chg with value := rng.min_value }) := by
  refine ⟨?_, ?_⟩ <;> rcases hmax with hmax | hmax <;>
    unfold Range.check <;>
    simp_all [lessOrCannotCompare]

theorem range_check_above_max (rng : Range) (chg : SettingChange) (v : Value)
    (h1 : rng.explain = "") (h2 : rng.is_const = false)
    (h3 : rng.max_value.isNull = false)
    (hcons : rng.min_value.isNull = false → accurateLess rng.max_value rng.min_value = some false)
    (hv : accurateLess rng.max_value v = some true)
    (hmin : rng.min_value.isNull = true ∨ accurateLess v rng.min_value = some false) :
    Range.check rng chg v .THROW_ON_VIOLATION
      = .error (.exception ("Setting " ++ chg.name ++ " should not be greater than "
          ++ fieldToString rng.max_value) .SETTING_CONSTRAINT_VIOLATION)
    ∧ Range.check rng chg v .CLAMP_ON_VIOLATION
      = .ok (true, { chg with value := rng.max_value }) := by
  refine ⟨?_, ?_⟩ <;> rcases hmin with hmin | hmin <;>
    unfold Range.check <;>
    simp_all [lessOrCannotCompare]

theorem range_check_within (rng : Range) (chg : SettingChange) (v : Value)
    (h1 : rng.explain = "") (h2 : rng.is_const = false)
    (hcons : rng.min_value.isNull = false → rng.max_value.isNull = false →
      accurateLess rng.max_value rng.min_value = some false)
    (hmin : rng.min_value.isNull = false → accurateLess v rng.min_value = some false)
    (hmax : rng.max_value.isNull = false → accurateLess rng.max_value v = some false) :
    ∀ reaction, Range.check rng chg v reaction = .ok (true, chg) := by
  intro reaction
  by_cases hm : rng.min_value.isNull = false <;> by_cases hx : rng.max_value.isNull = false <;>
    unfold Range.check <;>
    simp_all [lessOrCannotCompare]

theorem range_check_both_incomparable_clamp (rng : Range) (chg : SettingChange) (v : Value)
    (h1 : rng.explain = "") (h2 : rng.is_const = false)
    (h3 : rng.min_value.isNull = false) (h4 : rng.max_value.isNull = false)
    (hcons : accurateLess rng.max_value rng.min_value = some false)
    (hv1 : accurateLess v rng.min_value = none)
    (hv2 : accurateLess rng.max_value v = none) :
    Range.check rng chg v .CLAMP_ON_VIOLATION
      = .ok (true, { chg with value := rng.max_value }) := by
  unfold Range.check
  simp_all [lessOrCannotCompare]



/-- C2: getRange resolves the effective Range: allow_ddl special case
first, then the readonly special case, then the table lookup gated by
the readonly level. -/
theorem C2_getRange_resolution (ct : Constraints) (s : Settings) (name : String) :
    (s.allow_ddl = false →
       getRange ct s "allow_ddl"
         = Range.forbidden
             "Cannot modify allow_ddl setting when DDL queries are prohibited for the user"
             .QUERY_IS_PROHIBITED)
  ∧ (1 < s.readonly →
       getRange ct s "readonly"
         = Range.forbidden "Cannot modify readonly setting in readonly mode" .READONLY)
  ∧ (¬(name = "allow_ddl" ∧ s.allow_ddl = false) → s.readonly = 1 →
       ((findConstraint ct name = none →
           getRange ct s name
             = Range.forbidden ("Cannot modify " ++ name ++ " setting in readonly mode")
                 .READONLY)
        ∧ (∀ r, findConstraint ct name = some r → r.changeable_in_readonly = false →
           getRange ct s name
             = Range.forbidden ("Cannot modify " ++ name ++ " setting in readonly mode")
                 .READONLY)
        ∧ (∀ r, findConstraint ct name = some r → r.changeable_in_readonly = true →
           getRange ct s name = r)))
  ∧ (¬(name = "allow_ddl" ∧ s.allow_ddl = false) → ¬(name = "readonly" ∧ 1 < s.readonly) →
       (s.readonly = 0 ∨ s.readonly = 2) →
       ((findConstraint ct name = none → getRange ct s name = Range.allowed)
        ∧ (∀ r, findConstraint ct name = some r → getRange ct s name = r))) := by
  refine ⟨?_, ?_, ?_, ?_⟩
  · intro h
    unfold getRange
    simp [h]
  · intro h
    unfold getRange
    simp [h]
  · intro hn hro
    have hc1 : ¬(¬s.allow_ddl = true ∧ name = "allow_ddl") := by
      intro ⟨ha, hb⟩
      exact hn ⟨hb, by simpa using ha⟩
    refine ⟨?_, ?_, ?_⟩
    · intro hf
      unfold getRange
      rw [if_neg hc1, if_neg (by simp [hro])]
      rw [hf]
      simp [hro]
    · intro r hf hflag
      unfold getRange
      rw [if_neg hc1, if_neg (by simp [hro])]
      rw [hf]
      simp [hro, hflag]
    · intro r hf hflag
      unfold getRange
      rw [if_neg hc1, if_neg (by simp [hro])]
      rw [hf]
      simp [hro, hflag]
  · intro hn hn2 hro
    have hc1 : ¬(¬s.allow_ddl = true ∧ name = "allow_ddl") := by
      intro ⟨ha, hb⟩
      exact hn ⟨hb, by simpa using ha⟩
    have hc2 : ¬(1 < s.readonly ∧ name = "readonly") := by
      intro ⟨ha, hb⟩
      exact hn2 ⟨hb, ha⟩
    have hro1 : ¬s.readonly = 1 := by rcases hro with h | h <;> omega
    refine ⟨?_, ?_⟩
    · intro hf
      unfold getRange
      rw [if_neg hc1, if_neg hc2, hf]
      simp [hro1]
    · intro r hf
      unfold getRange
      rw [if_neg hc1, if_neg hc2, hf]
      simp [hro1]

/-- C2 witness: concrete instances of all four resolution cases. -/
theorem C2_getRange_resolution_witness :
    getRange ctMin10 { snapX10 with allow_ddl := false } "allow_ddl"
      = Range.forbidden
          "Cannot modify allow_ddl setting when DDL queries are prohibited for the user"
          .QUERY_IS_PROHIBITED
    ∧ getRange ctMin10 { snapX10 with readonly := 2 } "readonly"
      = Range.forbidden "Cannot modify readonly setting in readonly mode" .READONLY
    ∧ getRange ctMin10 { snapX10 with readonly := 1 } "x"
      = Range.forbidden "Cannot modify x setting in readonly mode" .READONLY
    ∧ getRange ctMin10 snapX10 "x" = { min_value := .int 10 } := by
  refine ⟨?_, ?_, ?_, ?_⟩
  · exact (C2_getRange_resolution ctMin10 { snapX10 with allow_ddl := false } "allow_ddl").1 rfl
  · exact (C2_getRange_resolution ctMin10 { snapX10 with readonly := 2 } "readonly").2.1 (by decide)
  · exact ((C2_getRange_resolution ctMin10 { snapX10 with readonly := 1 } "x").2.2.1
      (by decide) rfl).2.1 { min_value := .int 10 } (by decide) rfl
  · exact ((C2_getRange_resolution ctMin10 snapX10 "x").2.2.2
      (by decide) (by decide) (Or.inl rfl)).2 { min_value := .int 10 } (by decide)



theorem find_none_not_mem (ct : Constraints) (name : String)
    (h : findConstraint ct name = none) : name ∉ ct.map Prod.fst := by
  induction ct with
  | nil => simp
  | cons p rest ih =>
    obtain ⟨n0, r0⟩ := p
    unfold findConstraint at h
    revert h
    split
    · intro h
      simp at h
    · rename_i hne
      intro h
      simp [ih h]
      exact fun he => hne he.symm

/-- C5: merge under the Refine policy is per-field: a set (non-null)
min_value or max_value of the other entry overwrites this table's field
(last-writer-wins) and is_const is OR'd in; a prior true is_const is
never un-set by any later merge. -/
theorem C5_merge_refine (self other : Constraints) (name : String) :
    (∀ oc, (other.map Prod.fst).Nodup → findConstraint other name = some oc →
       ∃ rr, findConstraint (merge self other false) name = some rr
         ∧ rr.min_value = (if oc.min_value.isNull then
             ((findConstraint self name).getD {}).min_value else oc.min_value)
         ∧ rr.max_value = (if oc.max_value.isNull then
             ((findConstraint self name).getD {}).max_value else oc.max_value)
         ∧ rr.is_const = (((findConstraint self name).getD {}).is_const || oc.is_const))
  ∧ (∀ r, findConstraint self name = some r → r.is_const = true →
       ∃ rr, findConstraint (merge self other false) name = some rr ∧ rr.is_const = true) := by
  constructor
  · intro oc hnd hoc
    exact ⟨_, merge_refine_find_of_nodup self other name oc hnd hoc,
      mergeConstraint_min _ _, mergeConstraint_max _ _, mergeConstraint_is_const _ _⟩
  · intro r hr hc
    exact merge_refine_const_mono self other name r hr hc

/-- C5 witness: merging an is_const entry with a max bound into an
entry with a min bound keeps the min, takes the new max and turns
is_const on. -/
theorem C5_merge_refine_witness :
    ∃ rr,
      findConstraint
          (merge [("a", { min_value := Value.int 1 })]
            [("a", { max_value := Value.int 7, is_const := true })] false) "a"
        = some rr
      ∧ rr.min_value = Value.int 1
      ∧ rr.max_value = Value.int 7
      ∧ rr.is_const = true := by
  obtain ⟨rr, hfind, hmin, hmax, hconst⟩ :=
    (C5_merge_refine [("a", { min_value := Value.int 1 })]
      [("a", { max_value := Value.int 7, is_const := true })] "a").1
      { max_value := Value.int 7, is_const := true } (by decide) (by decide)
  exact ⟨rr, hfind, by simpa using hmin, by simpa using hmax, by simpa using hconst⟩

/-- C10: merge under the Refine policy never modifies the
changeable_in_readonly flag: a merged entry keeps the flag of the
pre-existing entry, a freshly created entry gets the default false, and
entries not named in the other table are untouched. -/
theorem C10_merge_changeable_frame (self other : Constraints) (name : String) :
    (∀ oc, (other.map Prod.fst).Nodup → findConstraint other name = some oc →
       ∃ rr, findConstraint (merge self other false) name = some rr
         ∧ rr.changeable_in_readonly
             = ((findConstraint self name).map Range.changeable_in_readonly).getD false)
  ∧ (findConstraint other name = none →
       findConstraint (merge self other false) name = findConstraint self name) := by
  constructor
  · intro oc hnd hoc
    refine ⟨_, merge_refine_find_of_nodup self other name oc hnd hoc, ?_⟩
    rw [mergeConstraint_changeable]
    cases hf : findConstraint self name <;> simp [hf]
  · intro hnone
    exact merge_refine_find_not_mem self other name (find_none_not_mem other name hnone)

/-- C10 witness: a fresh entry created by merging gets
changeable_in_readonly = false even though the other table's entry has
it true, and a pre-existing false flag survives a merge from a true
flag. -/
theorem C10_merge_changeable_frame_witness :
    (∃ rr,
      findConstraint (merge [] [("a", { changeable_in_readonly := true })] false) "a" = some rr
      ∧ rr.changeable_in_readonly = false)
    ∧ findConstraint
        (merge [("b", { min_value := Value.int 3 })] [("a", { is_const := true })] false) "b"
        = some { min_value := Value.int 3 } := by
  constructor
  · obtain ⟨rr, hfind, hflag⟩ :=
      (C10_merge_changeable_frame [] [("a", { changeable_in_readonly := true })] "a").1
        { changeable_in_readonly := true } (by decide) (by decide)
    exact ⟨rr, hfind, by simpa using hflag⟩
  · rw [(C10_merge_changeable_frame [("b", { min_value := Value.int 3 })]
      [("a", { is_const := true })] "b").2 (by decide)]
    decide

/-- C7: a Range with both bounds set and max_value genuinely below
min_value rejects every write: Throw raises, Clamp drops without any
rewriting, and (when the range is not separately forbidden) the
observable behaviour is identical to that of the same range marked
is_const. -/
theorem C7_inconsistent_range (rng : Range) (chg : SettingChange) (v : Value)
    (h3 : rng.min_value.isNull = false) (h4 : rng.max_value.isNull = false)
    (h5 : accurateLess rng.max_value rng.min_value = some true) :
    (∃ msg code, Range.check rng chg v .THROW_ON_VIOLATION = .error (.exception msg code))
    ∧ Range.check rng chg v .CLAMP_ON_VIOLATION = .ok (false, chg)
    ∧ (rng.explain = "" → ∀ reaction,
        Range.check rng chg v reaction
          = Range.check { rng with is_const := true } chg v reaction) := by
  by_cases he : rng.explain = ""
  · by_cases hc : rng.is_const = true
    · obtain ⟨ht, hcl⟩ := range_check_const rng chg v he hc
      refine ⟨⟨_, _, ht⟩, hcl, fun _ reaction => ?_⟩
      obtain ⟨ht2, hcl2⟩ := range_check_const { rng with is_const := true } chg v he rfl
      cases reaction
      · rw [ht, ht2]
      · rw [hcl, hcl2]
    · have hc2 : rng.is_const = false := by simpa using hc
      obtain ⟨ht, hcl⟩ := range_check_inconsistent rng chg v he hc2 h3 h4 h5
      refine ⟨⟨_, _, ht⟩, hcl, fun _ reaction => ?_⟩
      obtain ⟨ht2, hcl2⟩ := range_check_const { rng with is_const := true } chg v he rfl
      cases reaction
      · rw [ht, ht2]
      · rw [hcl, hcl2]
  · obtain ⟨ht, hcl⟩ := range_check_forbidden rng chg v he
    exact ⟨⟨_, _, ht⟩, hcl, fun h2 => absurd h2 he⟩

/-- C7 witness: the range min 10, max 5 drops a proposed 7 under Clamp
and raises under Throw. -/
theorem C7_inconsistent_range_witness :
    (∃ msg code,
      Range.check { min_value := Value.int 10, max_value := Value.int 5 } ⟨"x", .int 7⟩
        (.int 7) .THROW_ON_VIOLATION = .error (.exception msg code))
    ∧ Range.check { min_value := Value.int 10, max_value := Value.int 5 } ⟨"x", .int 7⟩
        (.int 7) .CLAMP_ON_VIOLATION = .ok (false, ⟨"x", .int 7⟩) := by
  obtain ⟨h1, h2, _⟩ :=
    C7_inconsistent_range { min_value := Value.int 10, max_value := Value.int 5 }
      ⟨"x", .int 7⟩ (.int 7) (by decide) (by decide) (by decide)
  exact ⟨h1, h2⟩



/-- C1 counterexample: with min 5, max 10 and an incomparable proposed
value, Clamp fires the below-minimum test and then also the
above-maximum test, leaving change.value = max_value (10) rather than
the min_value (5) required by a strict first-match-wins reading. -/
theorem C1_counterexample :
    Range.check { min_value := .int 5, max_value := .int 10 } ⟨"x", .str "a"⟩ (.str "a")
        .CLAMP_ON_VIOLATION = .ok (true, ⟨"x", .int 10⟩)
    ∧ Range.check { min_value := .int 5, max_value := .int 10 } ⟨"x", .str "a"⟩ (.str "a")
        .CLAMP_ON_VIOLATION ≠ .ok (true, ⟨"x", .int 5⟩) := by
  exact ⟨by decide, by decide⟩

/-- C1 (amended): Range.check applies the forbidden, is_const and
inconsistent-bounds tests in first-match-wins order; when new_value
genuinely orders below min_value and the above-maximum test does not
also fire (automatic for comparable values), Throw raises below-minimum
and Clamp rewrites change.value to min_value and keeps the change;
symmetrically for max_value; a value within bounds is accepted
unchanged.  When both bound comparisons fail as incomparable, Clamp
applies both rewrites in order and the change ends at max_value. -/
theorem C1_range_check_order (rng : Range) (chg : SettingChange) (v : Value) :
    (rng.explain ≠ "" →
       Range.check rng chg v .THROW_ON_VIOLATION = .error (.exception rng.explain rng.code)
       ∧ Range.check rng chg v .CLAMP_ON_VIOLATION = .ok (false, chg))
  ∧ (rng.explain = "" → rng.is_const = true →
       Range.check rng chg v .THROW_ON_VIOLATION
         = .error (.exception ("Setting " ++ chg.name ++ " should not be changed")
             .SETTING_CONSTRAINT_VIOLATION)
       ∧ Range.check rng chg v .CLAMP_ON_VIOLATION = .ok (false, chg))
  ∧ (rng.explain = "" → rng.is_const = false → rng.min_value.isNull = false →
     rng.max_value.isNull = false → accurateLess rng.max_value rng.min_value = some true →
       Range.check rng chg v .THROW_ON_VIOLATION
         = .error (.exception ("Setting " ++ chg.name ++ " should not be changed")
             .SETTING_CONSTRAINT_VIOLATION)
       ∧ Range.check rng chg v .CLAMP_ON_VIOLATION = .ok (false, chg))
  ∧ (rng.explain = "" → rng.is_const = false → rng.min_value.isNull = false →
     (rng.max_value.isNull = false → accurateLess rng.max_value rng.min_value = some false) →
     accurateLess v rng.min_value = some true →
     (rng.max_value.isNull = true ∨ accurateLess rng.max_value v = some false) →
       Range.check rng chg v .THROW_ON_VIOLATION
         = .error (.exception ("Setting " ++ chg.name ++ " should not be less than "
             ++ fieldToString rng.min_value) .SETTING_CONSTRAINT_VIOLATION)
       ∧ Range.check rng chg v .CLAMP_ON_VIOLATION
         = .ok (true, { chg with value := rng.min_value }))
  ∧ (rng.explain = "" → rng.is_const = false → rng.max_value.isNull = false →
     (rng.min_value.isNull = false → accurateLess rng.max_value rng.min_value = some false) →
     accurateLess rng.max_value v = some true →
     (rng.min_value.isNull = true ∨ accurateLess v rng.min_value = some false) →
       Range.check rng chg v .THROW_ON_VIOLATION
         = .error (.exception ("Setting " ++ chg.name ++ " should not be greater than "
             ++ fieldToString rng.max_value) .SETTING_CONSTRAINT_VIOLATION)
       ∧ Range.check rng chg v .CLAMP_ON_VIOLATION
         = .ok (true, { chg with value := rng.max_value }))
  ∧ (rng.explain = "" → rng.is_const = false →
     (rng.min_value.isNull = false → rng.max_value.isNull = false →
       accurateLess rng.max_value rng.min_value = some false) →
     (rng.min_value.isNull = false → accurateLess v rng.min_value = some false) →
     (rng.max_value.isNull = false → accurateLess rng.max_value v = some false) →
       ∀ reaction, Range.check rng chg v reaction = .ok (true, chg))
  ∧ (rng.explain = "" → rng.is_const = false → rng.min_value.isNull = false →
     rng.max_value.isNull = false → accurateLess rng.max_value rng.min_value = some false →
     accurateLess v rng.min_value = none → accurateLess rng.max_value v = none →
       Range.check rng chg v .CLAMP_ON_VIOLATION
         = .ok (true, { chg with value := rng.max_value })) := by
  refine ⟨?_, ?_, ?_, ?_, ?_, ?_, ?_⟩
  · exact fun h => range_check_forbidden rng chg v h
  · exact fun h1 h2 => range_check_const rng chg v h1 h2
  · exact fun h1 h2 h3 h4 h5 => range_check_inconsistent rng chg v h1 h2 h3 h4 h5
  · exact fun h1 h2 h3 hcons hv hmax => range_check_below_min rng chg v h1 h2 h3 hcons hv hmax
  · exact fun h1 h2 h3 hcons hv hmin => range_check_above_max rng chg v h1 h2 h3 hcons hv hmin
  · exact fun h1 h2 hcons hmin hmax => range_check_within rng chg v h1 h2 hcons hmin hmax
  · exact fun h1 h2 h3 h4 h5 h6 h7 =>
      range_check_both_incomparable_clamp rng chg v h1 h2 h3 h4 h5 h6 h7

/-- C1 witness: with min 5 and max 10, a proposed 3 raises below-minimum
under Throw and is clamped to 5 under Clamp, and a proposed 7 is
accepted unchanged. -/
theorem C1_range_check_order_witness :
    (Range.check { min_value := .int 5, max_value := .int 10 } ⟨"x", .int 3⟩ (.int 3)
        .THROW_ON_VIOLATION
      = .error (.exception "Setting x should not be less than 5" .SETTING_CONSTRAINT_VIOLATION)
     ∧ Range.check { min_value := .int 5, max_value := .int 10 } ⟨"x", .int 3⟩ (.int 3)
        .CLAMP_ON_VIOLATION = .ok (true, ⟨"x", .int 5⟩))
    ∧ Range.check { min_value := .int 5, max_value := .int 10 } ⟨"x", .int 7⟩ (.int 7)
        .THROW_ON_VIOLATION = .ok (true, ⟨"x", .int 7⟩) := by
  constructor
  · exact (C1_range_check_order { min_value := .int 5, max_value := .int 10 }
      ⟨"x", .int 3⟩ (.int 3)).2.2.2.1 rfl rfl (by decide) (fun _ => by decide) (by decide)
      (Or.inr (by decide))
  · exact (C1_range_check_order { min_value := .int 5, max_value := .int 10 }
      ⟨"x", .int 7⟩ (.int 7)).2.2.2.2.2.1 rfl rfl (fun _ _ => by decide)
      (fun _ => by decide) (fun _ => by decide) .THROW_ON_VIOLATION

/-- C8 counterexample: an incomparable proposed value against min 5
under Throw raises the propagated comparison error, not the
below-minimum constraint violation the claim describes. -/
theorem C8_counterexample :
    accurateLess (Value.str "a") (Value.int 5) = none
    ∧ Range.check { min_value := .int 5 } ⟨"x", .str "a"⟩ (.str "a") .THROW_ON_VIOLATION
        = .error .comparisonError := by
  exact ⟨by decide, by decide⟩

/-- C8 (amended): a failed comparison between incomparable values is
treated as true (fail toward violation) under Clamp, so the change is
clamped or dropped as if the bound were violated; under Throw the failed
comparison propagates as its own hard error (the comparison exception)
instead of the corresponding bound-violation failure. -/
theorem C8_incomparable_comparisons :
    (∀ l r, accurateLess l r = none →
       lessOrCannotCompare .CLAMP_ON_VIOLATION l r = .ok true
       ∧ lessOrCannotCompare .THROW_ON_VIOLATION l r = .error .comparisonError)
    ∧ (∀ rng (chg : SettingChange) (v : Value), rng.explain = "" → rng.is_const = false →
        rng.min_value.isNull = false → rng.max_value.isNull = true →
        accurateLess v rng.min_value = none →
        Range.check rng chg v .CLAMP_ON_VIOLATION
          = .ok (true, { chg with value := rng.min_value })
        ∧ Range.check rng chg v .THROW_ON_VIOLATION = .error .comparisonError) := by
  constructor
  · intro l r h
    exact ⟨by rw [lessOrCannotCompare_clamp]; simp [lccB, h], lessOC_none_throw l r h⟩
  · intro rng chg v h1 h2 h3 h4 hv
    constructor
    · rw [range_check_clamp]
      unfold clampCheckResult
      simp [h1, h2, h3, h4, lccB, hv]
    · unfold Range.check
      simp [h1, h2, h3, h4, lessOrCannotCompare, hv]

/-- C8 witness: concrete incomparable comparison (string against int 5)
is treated as a violation under Clamp (clamped to the minimum) and
raises the comparison error under Throw. -/
theorem C8_incomparable_comparisons_witness :
    (lessOrCannotCompare .CLAMP_ON_VIOLATION (Value.str "a") (Value.int 5) = .ok true
     ∧ lessOrCannotCompare .THROW_ON_VIOLATION (Value.str "a") (Value.int 5)
        = .error .comparisonError)
    ∧ Range.check { min_value := .int 5 } ⟨"x", .str "a"⟩ (.str "a") .CLAMP_ON_VIOLATION
        = .ok (true, ⟨"x", .int 5⟩) := by
  constructor
  · exact C8_incomparable_comparisons.1 (Value.str "a") (Value.int 5) (by decide)
  · have h := (C8_incomparable_comparisons.2 { min_value := .int 5 } ⟨"x", .str "a"⟩
      (.str "a") rfl rfl (by decide) (by decide) (by decide)).1
    simpa using h



theorem clampCheckResult_value (rng : Range) (c : SettingChange) (nv : Value) :
    ((clampCheckResult rng c nv).2.name = c.name)
    ∧ ((clampCheckResult rng c nv).2.value = c.value
       ∨ (clampCheckResult rng c nv).2.value = rng.min_value
       ∨ (clampCheckResult rng c nv).2.value = rng.max_value) := by
  unfold clampCheckResult
  repeat' split
  all_goals simp

theorem clampImplResult_shape (env : Env) (ct : Constraints) (s : Settings)
    (c : SettingChange) :
    ((clampImplResult env ct s c).2.name = c.name)
    ∧ ((clampImplResult env ct s c).2.value = c.value
       ∨ (clampImplResult env ct s c).2.value = (getRange ct s c.name).min_value
       ∨ (clampImplResult env ct s c).2.value = (getRange ct s c.name).max_value) := by
  unfold clampImplResult
  repeat' split
  all_goals first
    | exact clampCheckResult_value _ _ _
    | simp

theorem clampCheckResult_drop (rng : Range) (c : SettingChange) (nv : Value)
    (h : rng.explain ≠ "" ∨ rng.is_const = true) :
    clampCheckResult rng c nv = (false, c) := by
  unfold clampCheckResult
  rcases h with h | h
  · rw [if_pos h]
  · by_cases e : rng.explain ≠ ""
    · rw [if_pos e]
    · rw [if_neg e, if_pos h]

theorem clampImpl_drop_unallowed (env : Env) (ct : Constraints) (s : Settings)
    (c : SettingChange) (hp : ¬c.name = "profile")
    (hall : env.isSettingNameAllowed c.name = false) :
    checkImpl env ct s c .CLAMP_ON_VIOLATION = .ok (false, c) := by
  rw [checkImpl_clamp]
  unfold clampImplResult
  rw [if_neg hp, if_pos (by simp [hall])]

theorem clampImpl_drop_cast (env : Env) (ct : Constraints) (s : Settings)
    (c : SettingChange) (hp : ¬c.name = "profile")
    (hcast : env.castValueUtil c.name c.value = none) :
    checkImpl env ct s c .CLAMP_ON_VIOLATION = .ok (false, c) := by
  rw [checkImpl_clamp]
  unfold clampImplResult
  repeat' split
  all_goals simp_all

theorem clampImpl_drop_forbidden_const (env : Env) (ct : Constraints) (s : Settings)
    (c : SettingChange) (hp : ¬c.name = "profile")
    (hrange : (getRange ct s c.name).explain ≠ "" ∨ (getRange ct s c.name).is_const = true) :
    checkImpl env ct s c .CLAMP_ON_VIOLATION = .ok (false, c) := by
  rw [checkImpl_clamp]
  unfold clampImplResult
  repeat' split
  all_goals first
    | (rw [clampCheckResult_drop _ _ _ hrange])
    | simp_all



theorem checkList_drop_head (env : Env) (ct : Constraints) (s : Settings)
    (c c2 : SettingChange) (rest : List SettingChange) (reaction : ReactionOnViolation)
    (h : checkImpl env ct s c reaction = .ok (false, c2)) :
    checkList env ct s (c :: rest) reaction = checkList env ct s rest reaction := by
  conv_lhs => unfold checkList
  rw [h]
  rcases hr : checkList env ct s rest reaction with e | l <;> simp

/-- C3 counterexample: a change named profile bypasses every check, so a
profile change whose name the allow list rejects (an unknown setting) is
kept by clamp rather than dropped. -/
theorem C3_counterexample :
    rejectEnv.isSettingNameAllowed "profile" = false
    ∧ clamp rejectEnv [] snapX10 [⟨"profile", .int 1⟩] = .ok [⟨"profile", .int 1⟩] := by
  exact ⟨by decide, by decide⟩

/-- C3 (amended): clamp never raises; every kept change keeps its name
and is either unchanged or rewritten to the violated boundary of its
resolved range; and, except for the profile-switch name (which bypasses
all checks and is always kept), changes whose setting is unknown, whose
value fails to cast, or whose resolved range is forbidden or constant
are always dropped, never auto-corrected. -/
theorem C3_clamp_never_raises (env : Env) (ct : Constraints) (s : Settings) :
    (∀ changes, ∃ out, clamp env ct s changes = .ok out)
  ∧ (∀ (c : SettingChange) (b : Bool) (c2 : SettingChange),
       checkImpl env ct s c .CLAMP_ON_VIOLATION = .ok (b, c2) →
       c2.name = c.name
       ∧ (c2.value = c.value ∨ c2.value = (getRange ct s c.name).min_value
          ∨ c2.value = (getRange ct s c.name).max_value))
  ∧ (∀ c : SettingChange, c.name ≠ "profile" → env.isSettingNameAllowed c.name = false →
       checkImpl env ct s c .CLAMP_ON_VIOLATION = .ok (false, c))
  ∧ (∀ c : SettingChange, c.name ≠ "profile" → env.castValueUtil c.name c.value = none →
       checkImpl env ct s c .CLAMP_ON_VIOLATION = .ok (false, c))
  ∧ (∀ c : SettingChange, c.name ≠ "profile" →
       ((getRange ct s c.name).explain ≠ "" ∨ (getRange ct s c.name).is_const = true) →
       checkImpl env ct s c .CLAMP_ON_VIOLATION = .ok (false, c)) := by
  refine ⟨?_, ?_, ?_, ?_, ?_⟩
  · intro changes
    exact ⟨_, checkList_clamp env ct s changes⟩
  · intro c b c2 h
    rw [checkImpl_clamp] at h
    simp only [Except.ok.injEq] at h
    have hs := clampImplResult_shape env ct s c
    rw [h] at hs
    exact hs
  · exact fun c hp hall => clampImpl_drop_unallowed env ct s c hp hall
  · exact fun c hp hcast => clampImpl_drop_cast env ct s c hp hcast
  · exact fun c hp hrange => clampImpl_drop_forbidden_const env ct s c hp hrange

/-- C3 witness: clamp returns a result on a concrete list, and a
concrete unknown setting and a concrete constant setting are dropped. -/
theorem C3_clamp_never_raises_witness :
    (∃ out, clamp idEnv ctMin10 snapX10 [⟨"x", .int 3⟩] = .ok out)
    ∧ checkImpl rejectEnv [] snapX10 ⟨"y", .int 1⟩ .CLAMP_ON_VIOLATION = .ok (false, ⟨"y", .int 1⟩)
    ∧ checkImpl idEnv [("z", { is_const := true })] snapX10 ⟨"z", .int 1⟩ .CLAMP_ON_VIOLATION
        = .ok (false, ⟨"z", .int 1⟩) := by
  refine ⟨(C3_clamp_never_raises idEnv ctMin10 snapX10).1 [⟨"x", .int 3⟩], ?_, ?_⟩
  · exact (C3_clamp_never_raises rejectEnv [] snapX10).2.2.1 ⟨"y", .int 1⟩ (by decide) (by decide)
  · exact (C3_clamp_never_raises idEnv [("z", { is_const := true })] snapX10).2.2.2.2
      ⟨"z", .int 1⟩ (by decide) (by decide)

/-- C4 counterexample: under the batch check a disallowed name is not
removed silently; the allow-list failure is raised and the batch
aborts. -/
theorem C4_counterexample :
    rejectEnv.isSettingNameAllowed "x" = false
    ∧ checkChanges rejectEnv [] snapX10 [⟨"x", .int 1⟩]
        = .error (.exception (unknownSettingMessage "x" []) .UNKNOWN_SETTING) := by
  exact ⟨by decide, by decide⟩

/-- C4 (amended): the batch check removes no-op changes silently from
the list, while disallowed names raise the unknown-setting hard failure
and any hard failure of one change aborts the whole batch. -/
theorem C4_check_batch (env : Env) (ct : Constraints) (s : Settings) :
    (∀ (c : SettingChange) (cur : Value) rest, c.name ≠ "profile" →
       env.isSettingNameAllowed c.name = true →
       s.values c.name = some cur → c.value = cur →
       checkImpl env ct s c .THROW_ON_VIOLATION = .ok (false, c)
       ∧ checkChanges env ct s (c :: rest) = checkChanges env ct s rest)
  ∧ (∀ c : SettingChange, c.name ≠ "profile" → env.isSettingNameAllowed c.name = false →
       checkImpl env ct s c .THROW_ON_VIOLATION
         = .error (.exception (unknownSettingMessage c.name (s.hints c.name)) .UNKNOWN_SETTING))
  ∧ (∀ (c : SettingChange) rest e, checkImpl env ct s c .THROW_ON_VIOLATION = .error e →
       checkChanges env ct s (c :: rest) = .error e) := by
  refine ⟨?_, ?_, ?_⟩
  · intro c cur rest hp hall hsv hvc
    have h1 : checkImpl env ct s c .THROW_ON_VIOLATION = .ok (false, c) := by
      unfold checkImpl
      rw [if_neg hp, if_neg (by simp [hall]), if_neg (by simp), hsv]
      simp [hvc]
    exact ⟨h1, checkList_drop_head env ct s c c rest .THROW_ON_VIOLATION h1⟩
  · intro c hp hall
    unfold checkImpl
    rw [if_neg hp, if_pos (by simp [hall])]
  · intro c rest e h
    exact checkList_error_head env ct s c rest e h

/-- C4 witness: a concrete no-op is dropped silently from the batch and
a concrete allow-list failure aborts the batch. -/
theorem C4_check_batch_witness :
    (checkImpl idEnv ctMin10 snapX10 ⟨"x", .int 10⟩ .THROW_ON_VIOLATION
       = .ok (false, ⟨"x", .int 10⟩)
     ∧ checkChanges idEnv ctMin10 snapX10 [⟨"x", .int 10⟩] = checkChanges idEnv ctMin10 snapX10 [])
    ∧ checkChanges rejectEnv [] snapX10 [⟨"x", .int 1⟩]
        = .error (.exception (unknownSettingMessage "x" (snapX10.hints "x")) .UNKNOWN_SETTING) := by
  constructor
  · exact (C4_check_batch idEnv ctMin10 snapX10).1 ⟨"x", .int 10⟩ (.int 10) [] (by decide)
      (by decide) (by decide) (by decide)
  · exact (C4_check_batch rejectEnv [] snapX10).2.2 ⟨"x", .int 1⟩ [] _
      ((C4_check_batch rejectEnv [] snapX10).2.1 ⟨"x", .int 1⟩ (by decide) (by decide))

/-- C6 counterexample: a no-op change (proposed value equal to current)
whose name the allow list rejects still raises under Throw; the
allow-list gate precedes the no-op test. -/
theorem C6_counterexample :
    snapX5.values "x" = some (.int 5)
    ∧ checkImpl rejectEnv [] snapX5 ⟨"x", .int 5⟩ .THROW_ON_VIOLATION
        = .error (.exception (unknownSettingMessage "x" []) .UNKNOWN_SETTING) := by
  exact ⟨by decide, by decide⟩

/-- C6 (amended): for every change whose name passes the allow list and
is not the profile-switch name, whose setting has a current value in the
snapshot, and whose proposed value is representation-equal to that
current value before or after casting, checkImpl treats the change as a
no-op under both reactions: no error, and the change is dropped
unmodified. -/
theorem C6_noop_dropped (env : Env) (ct : Constraints) (s : Settings)
    (c : SettingChange) (cur : Value) (reaction : ReactionOnViolation)
    (hp : c.name ≠ "profile") (hall : env.isSettingNameAllowed c.name = true)
    (hsv : s.values c.name = some cur)
    (heq : c.value = cur ∨ env.castValueUtil c.name c.value = some cur) :
    checkImpl env ct s c reaction = .ok (false, c) := by
  unfold checkImpl
  rw [if_neg hp, if_neg (by simp [hall]), if_neg (by simp [hall])]
  simp only [hsv]
  by_cases hvc : c.value = cur
  · simp [hvc]
  · rcases heq with heq | heq
    · exact absurd heq hvc
    · rw [if_neg hvc]
      unfold castValueStep
      rw [heq]
      simp

/-- C6 witness: a proposed 5 against current value 5 is dropped without
error under both reactions. -/
theorem C6_noop_dropped_witness :
    checkImpl idEnv ctMin10 snapX5 ⟨"x", .int 5⟩ .THROW_ON_VIOLATION = .ok (false, ⟨"x", .int 5⟩)
    ∧ checkImpl idEnv ctMin10 snapX5 ⟨"x", .int 5⟩ .CLAMP_ON_VIOLATION
        = .ok (false, ⟨"x", .int 5⟩) := by
  constructor
  · exact C6_noop_dropped idEnv ctMin10 snapX5 ⟨"x", .int 5⟩ (.int 5) .THROW_ON_VIOLATION
      (by decide) (by decide) (by decide) (Or.inl rfl)
  · exact C6_noop_dropped idEnv ctMin10 snapX5 ⟨"x", .int 5⟩ (.int 5) .CLAMP_ON_VIOLATION
      (by decide) (by decide) (by decide) (Or.inl rfl)



/-- C9 counterexample: with minimum 10 and current value 10, clamp
rewrites a proposed 3 to 10, and a second clamp run drops that rewritten
entry as a no-op (its value now equals the current value), so clamp is
not idempotent. -/
theorem C9_counterexample :
    clamp idEnv ctMin10 snapX10 [⟨"x", .int 3⟩] = .ok [⟨"x", .int 10⟩]
    ∧ clamp idEnv ctMin10 snapX10 [⟨"x", .int 10⟩] = .ok [] := by
  exact ⟨by decide, by decide⟩

/-- C9 (amended): re-running the batch check on an already-accepted
change list produces the identical list; re-running clamp on its own
output (with canonical, cast-stable stored bounds) never rewrites any
value further — the second output is a sublist of the first — but
entries whose clamped value coincides with the current value are dropped
as no-ops on the second run, so clamp itself is not idempotent. -/
theorem C9_idempotence (env : Env) (ct : Constraints) (s : Settings) :
    (∀ changes out, checkChanges env ct s changes = .ok out →
       checkChanges env ct s out = .ok out)
  ∧ (∀ changes out out2, boundsCastStable env ct →
       clamp env ct s changes = .ok out → clamp env ct s out = .ok out2 →
       out2.Sublist out) := by
  constructor
  · intro changes out h
    exact checkList_throw_of_members env ct s out (checkList_throw_members env ct s changes out h)
  · intro changes out out2 hstable h1 h2
    unfold clamp at h1 h2
    rw [checkList_clamp] at h1 h2
    simp only [Except.ok.injEq] at h1 h2
    subst h1
    subst h2
    apply pureClampList_sublist
    intro c hc
    obtain ⟨c0, _, hc0⟩ := pureClampList_mem env ct s changes c hc
    exact clampImpl_stable env ct s c0 c hstable hc0

/-- C9 witness: a concrete accepted list re-checks to itself, and the
second clamp output of the counterexample list is a sublist of the
first. -/
theorem C9_idempotence_witness :
    checkChanges idEnv ctMin10 snapX10 [⟨"x", .int 20⟩] = .ok [⟨"x", .int 20⟩]
    ∧ List.Sublist ([] : List SettingChange) [⟨"x", .int 10⟩] := by
  constructor
  · exact (C9_idempotence idEnv ctMin10 snapX10).1 [⟨"x", .int 20⟩] [⟨"x", .int 20⟩] (by decide)
  · refine (C9_idempotence idEnv ctMin10 snapX10).2 [⟨"x", .int 3⟩] [⟨"x", .int 10⟩] [] ?_
      (by decide) (by decide)
    intro name r h
    unfold ctMin10 findConstraint at h
    revert h
    split
    · rename_i heq
      intro h
      simp at h
      subst h
      exact ⟨fun _ => rfl, fun _ => rfl⟩
    · intro h
      simp [findConstraint] at h

end DB
